import Mathlib

/-!
Shallow embedding of the core of the `qti3e/ursa` node:

* `crates/ursa-network/src/service.rs` — the `UrsaService` event loop:
  its mutable tables (`bitswap_queries`, `response_channels`,
  `pending_responses`, `peers`, `cached_content`, `peer_cached_content`),
  the command handler, and the per-behaviour swarm-event handlers.
* `crates/ursa-proxy/src/core/handler.rs` — the `proxy_pass` cache path.

Rust `HashMap`s are modelled as association lists with distinct keys,
`HashSet`s as lists used up to membership, reply channels as opaque
identifiers, and every externally observable action (a reply sent on a
channel, an emitted `NetworkEvent`, an outbound RPC, a started bitswap
query) as an element of an `Output` trace returned by the handler.
Results of calls into the black-box swarm layer (`sync_block`,
`send_request`, `listen_on`, the gossip operations, randomness) are
supplied by an `Env` record of environment choices.
-/

namespace Ursa

abbrev PeerId := Nat
abbrev Cid := Nat
abbrev QueryId := Nat
abbrev RequestId := Nat
abbrev ChanId := Nat
abbrev Multiaddr := Nat

/-- Lookup in an association list, mirroring `HashMap::get`. -/
def lookupA {α : Type} : List (Nat × α) → Nat → Option α
  | [], _ => none
  | (k', v) :: rest, k => if k' = k then some v else lookupA rest k

/-- Insert/replace in an association list, mirroring `HashMap::insert`. -/
def insertA {α : Type} : List (Nat × α) → Nat → α → List (Nat × α)
  | [], k, v => [(k, v)]
  | (k', v') :: rest, k, v =>
    if k' = k then (k, v) :: rest else (k', v') :: insertA rest k v

/-- Remove a key from an association list, mirroring `HashMap::remove`. -/
def eraseA {α : Type} (l : List (Nat × α)) (k : Nat) : List (Nat × α) :=
  l.filter (fun p => p.1 != k)

/-- Modelled from the spec: `CacheSummary`
(`crates/ursa-network/src/utils/cache_summary.rs` is not among the given
sources). Per spec §4.1 it is a mergeable set-membership digest over byte
strings with idempotent `insert` and a `contains` that has no false
negatives. We model it as the exact set of inserted keys (a digest with
no false positives), with `Cid.to_bytes` modelled as the identity; none
of the service logic below depends on more than `insert`/`contains`. -/
structure CacheSummary where
  elems : List Cid
deriving Repr, DecidableEq

def CacheSummary.contains (s : CacheSummary) (k : Cid) : Bool :=
  s.elems.contains k

def CacheSummary.insert (s : CacheSummary) (k : Cid) : CacheSummary :=
  if s.elems.contains k then s else ⟨k :: s.elems⟩

def CacheSummary.empty : CacheSummary := ⟨[]⟩

/-- `RequestType` from `codec/protocol.rs` (payload of `UrsaExchangeRequest`). -/
inductive RequestType
  | carRequest
  | cacheRequest (cid : Cid)
  | storeSummary (summary : CacheSummary)
deriving Repr, DecidableEq

/-- `ResponseType` from `codec/protocol.rs` (payload of `UrsaExchangeResponse`). -/
inductive ResponseType
  | cacheResponse
  | storeSummaryRequest
deriving Repr, DecidableEq

/-- `NetworkEvent` from `service.rs` (gossipsub payloads elided). -/
inductive NetworkEvent
  | peerConnected (p : PeerId)
  | peerDisconnected (p : PeerId)
  | gossipEvent
  | requestMessage (rid : RequestId)
  | bitswapWant (cid : Cid) (qid : QueryId)
deriving Repr, DecidableEq

/-- A value sent on a oneshot reply channel. -/
inductive Reply
  | ok
  | errNoPeers
  | errNotFound (cid : Cid)
  | response (r : ResponseType)
  | peersSnapshot (l : List PeerId)
  | addresses (l : List Multiaddr)
  | gossipResult (succeeded : Bool)
deriving Repr, DecidableEq

/-- One externally observable action of a handler. -/
inductive Output
  | reply (chan : ChanId) (r : Reply)
  | emit (e : NetworkEvent)
  | sendRequest (peer : PeerId) (req : RequestType)
  | graphsyncRequest (peer : PeerId) (root : Cid)
  | sendResponse (r : ResponseType)
  | syncBlock (cid : Cid) (peers : List PeerId)
deriving Repr, DecidableEq

/-- The mutable state of `UrsaService` owned by the event loop, together
with the two immutable configuration fields the handlers read
(`bootstraps`, and whether the relay client behaviour is enabled). -/
structure ServiceState where
  bitswap_queries : List (QueryId × Cid)
  response_channels : List (Cid × List ChanId)
  pending_responses : List (RequestId × ChanId)
  peers : List PeerId
  cached_content : CacheSummary
  peer_cached_content : List (PeerId × CacheSummary)
  bootstraps : List Multiaddr
  relayClientEnabled : Bool
deriving Repr, DecidableEq

/-- Result of `Swarm::listen_on`. -/
inductive ListenResult
  | ok
  | err
deriving Repr, DecidableEq

/-- Choices made by the black-box swarm layer and by randomness during
one handler invocation. -/
structure Env where
  /-- Result of `behaviour.sync_block(cid, peers)`: `some qid` for `Ok(query_id)`. -/
  syncResult : Option QueryId
  /-- `RequestId` returned by `request_response.send_request`. -/
  requestId : RequestId
  /-- Outcome reported by the gossipsub layer for subscribe/unsubscribe/publish. -/
  gossipOk : Bool
  /-- Result of `swarm.listen_on` on the relay circuit address. -/
  listen : ListenResult
  /-- Random draw used by `bootstraps.choose(&mut rand::thread_rng())`. -/
  rand : Nat
  /-- `swarm.listeners()` snapshot. -/
  swarmListeners : List Multiaddr
  /-- `behaviour.public_address()`. -/
  publicAddr : Option Multiaddr
deriving Repr, DecidableEq

/-- `SliceRandom::choose`: `none` iff the slice is empty. -/
def chooseRand (l : List Multiaddr) (r : Nat) : Option Multiaddr :=
  if l.isEmpty then none else l.get? (r % l.length)

/-! ## Command handling (`UrsaService::handle_command`) -/

/-- `GossipsubMessage` commands (topic/data payloads elided; the outcome
comes from the gossip layer). -/
inductive GossipsubMessage
  | subscribe (sender : ChanId)
  | unsubscribe (sender : ChanId)
  | publish (sender : ChanId)
deriving Repr, DecidableEq

/-- `NetworkCommand` from `service.rs` (the `#[cfg(test)]` variant omitted). -/
inductive NetworkCommand
  | getBitswap (cid : Cid) (sender : ChanId)
  | put (cid : Cid) (sender : ChanId)
  | getPeers (sender : ChanId)
  | getListenerAddresses (sender : ChanId)
  | sendRequest (peer : PeerId) (request : RequestType) (channel : ChanId)
  | gossipsubMessage (m : GossipsubMessage)
deriving Repr, DecidableEq

/-- The `NetworkCommand::GetBitswap` arm of `handle_command`
(service.rs lines 740–783). `syncResult` is the result of
`self.swarm.behaviour_mut().sync_block(cid, peers)`; the peer list the
call receives is recorded in the `Output.syncBlock` trace element. -/
def handleGetBitswap (st : ServiceState) (cid : Cid) (sender : ChanId)
    (syncResult : Option QueryId) : ServiceState × List Output :=
  let peers := st.peers
  if peers.isEmpty then
    (st, [Output.reply sender Reply.errNoPeers])
  else
    let rc :=
      match lookupA st.response_channels cid with
      | some chans => insertA st.response_channels cid (chans ++ [sender])
      | none => insertA st.response_channels cid [sender]
    let filtered := peers.filter (fun p =>
      match lookupA st.peer_cached_content p with
      | some cache_summary => cache_summary.contains cid
      | none => true)
    let st1 := { st with response_channels := rc }
    match syncResult with
    | some query_id =>
      ({ st1 with bitswap_queries := insertA st1.bitswap_queries query_id cid },
        [Output.syncBlock cid filtered,
         Output.emit (NetworkEvent.bitswapWant cid query_id)])
    | none =>
      (st1, [Output.syncBlock cid filtered])

/-- `UrsaService::handle_command` (service.rs lines 738–897). -/
def handle_command (st : ServiceState) (env : Env) (c : NetworkCommand) :
    ServiceState × List Output :=
  match c with
  | NetworkCommand.getBitswap cid sender =>
    handleGetBitswap st cid sender env.syncResult
  | NetworkCommand.put cid sender =>
    let cacheReqs := st.peers.map (fun p =>
      Output.sendRequest p (RequestType.cacheRequest cid))
    let newSummary := st.cached_content.insert cid
    let storeReqs := st.peers.map (fun p =>
      Output.sendRequest p (RequestType.storeSummary newSummary))
    ({ st with cached_content := newSummary },
      cacheReqs ++ storeReqs ++ [Output.reply sender Reply.ok])
  | NetworkCommand.getPeers sender =>
    (st, [Output.reply sender (Reply.peersSnapshot st.peers)])
  | NetworkCommand.getListenerAddresses sender =>
    let addrs :=
      match env.publicAddr with
      | some a => env.swarmListeners ++ [a]
      | none => env.swarmListeners
    (st, [Output.reply sender (Reply.addresses addrs)])
  | NetworkCommand.sendRequest peer request channel =>
    ({ st with pending_responses := insertA st.pending_responses env.requestId channel },
      [Output.sendRequest peer request,
       Output.emit (NetworkEvent.requestMessage env.requestId)])
  | NetworkCommand.gossipsubMessage m =>
    match m with
    | GossipsubMessage.subscribe sender =>
      (st, [Output.reply sender (Reply.gossipResult env.gossipOk)])
    | GossipsubMessage.unsubscribe sender =>
      (st, [Output.reply sender (Reply.gossipResult env.gossipOk)])
    | GossipsubMessage.publish sender =>
      (st, [Output.reply sender (Reply.gossipResult env.gossipOk)])

/-! ## Swarm event handling -/

/-- `libp2p_bitswap::BitswapEvent`; `success` is whether the `Complete`
result was `Ok(())`. -/
inductive BitswapEvent
  | progress (qid : QueryId)
  | complete (qid : QueryId) (success : Bool)
deriving Repr, DecidableEq

/-- `UrsaService::handle_bitswap` (service.rs lines 452–486). -/
def handle_bitswap (st : ServiceState) (ev : BitswapEvent) :
    ServiceState × List Output :=
  match ev with
  | BitswapEvent.progress _ => (st, [])
  | BitswapEvent.complete query_id success =>
    match lookupA st.bitswap_queries query_id with
    | some cid =>
      let st1 := { st with bitswap_queries := eraseA st.bitswap_queries query_id }
      match lookupA st1.response_channels cid with
      | some chans =>
        ({ st1 with response_channels := eraseA st1.response_channels cid },
          chans.map (fun chan =>
            Output.reply chan (if success then Reply.ok else Reply.errNotFound cid)))
      | none => (st1, [])
    | none => (st, [])

/-- `RequestResponseEvent` over `UrsaExchangeRequest`/`UrsaExchangeResponse`. -/
inductive ReqResEvent
  | requestMsg (peer : PeerId) (rid : RequestId) (req : RequestType)
  | responseMsg (rid : RequestId) (resp : ResponseType)
  | outboundFailure (rid : RequestId)
  | inboundFailure (rid : RequestId)
  | responseSent
deriving Repr, DecidableEq

/-- `UrsaService::handle_req_res` (service.rs lines 566–654). The
graphsync `Request::builder()...build().unwrap()` in the `CacheRequest`
arm always has its `root` and `selector` fields set, so it is modelled
as total. -/
def handle_req_res (st : ServiceState) (ev : ReqResEvent) :
    ServiceState × List Output :=
  match ev with
  | ReqResEvent.requestMsg peer rid req =>
    match req with
    | RequestType.carRequest =>
      (st, [Output.emit (NetworkEvent.requestMessage rid)])
    | RequestType.cacheRequest cid =>
      (st, [Output.graphsyncRequest peer cid,
            Output.sendResponse ResponseType.cacheResponse,
            Output.emit (NetworkEvent.requestMessage rid)])
    | RequestType.storeSummary cache_summary =>
      ({ st with peer_cached_content := insertA st.peer_cached_content peer cache_summary },
        [Output.sendResponse ResponseType.storeSummaryRequest,
         Output.emit (NetworkEvent.requestMessage rid)])
  | ReqResEvent.responseMsg rid resp =>
    match lookupA st.pending_responses rid with
    | some chan =>
      ({ st with pending_responses := eraseA st.pending_responses rid },
        [Output.reply chan (Reply.response resp)])
    | none => (st, [])
  | ReqResEvent.outboundFailure _ => (st, [])
  | ReqResEvent.inboundFailure _ => (st, [])
  | ReqResEvent.responseSent => (st, [])

/-- `libp2p::autonat::NatStatus`. -/
inductive NatStatus
  | unknown
  | privateStatus
  | publicStatus (addr : Multiaddr)
deriving Repr, DecidableEq

/-- `libp2p::autonat::Event`. -/
inductive AutonatEvent
  | statusChanged (old new : NatStatus)
  | inboundProbe
  | outboundProbe
deriving Repr, DecidableEq

/-- `UrsaService::handle_autonat` (service.rs lines 417–450). The
`.expect("failed to listen on relay")` on `swarm.listen_on` is modelled
as `Except.error`: a `Result::Err` from `listen_on` panics the handler. -/
def handle_autonat (st : ServiceState) (env : Env) (ev : AutonatEvent) :
    Except String (ServiceState × List Output) :=
  match ev with
  | AutonatEvent.statusChanged old new =>
    match old, new with
    | NatStatus.unknown, NatStatus.privateStatus =>
      if st.relayClientEnabled then
        match chooseRand st.bootstraps env.rand with
        | some _addr =>
          match env.listen with
          | ListenResult.ok => Except.ok (st, [])
          | ListenResult.err => Except.error "failed to listen on relay"
        | none => Except.ok (st, [])
      else Except.ok (st, [])
    | _, NatStatus.publicStatus _ => Except.ok (st, [])
    | _, _ => Except.ok (st, [])
  | AutonatEvent.inboundProbe => Except.ok (st, [])
  | AutonatEvent.outboundProbe => Except.ok (st, [])

/-- `MdnsEvent::Discovered`: `add_address` then, when `peers.insert`
reports a new peer, dial it (the dial touches no table). -/
def mdnsStep (peers : List PeerId) : List (PeerId × Multiaddr) → List PeerId
  | [] => peers
  | (p, _) :: rest =>
    mdnsStep (if peers.contains p then peers else peers ++ [p]) rest

/-- The swarm events dispatched by `UrsaService::handle_swarm_event`
(service.rs lines 674–735); variants that only log or record metrics are
collapsed to payload-free constructors. -/
inductive SwarmEvent
  | identifyReceived (peer : PeerId) (sameNetwork : Bool) (listenAddrs : List Multiaddr)
  | autonat (ev : AutonatEvent)
  | ping
  | bitswap (ev : BitswapEvent)
  | gossipsub
  | mdnsDiscovered (pairs : List (PeerId × Multiaddr))
  | mdnsExpired
  | kad
  | reqRes (ev : ReqResEvent)
  | relayServer
  | relayClient
  | dcutr
  | graphsync
  | connectionEstablished (peer : PeerId)
  | connectionClosed (peer : PeerId) (numEstablished : Nat)
  | otherSwarm
deriving Repr, DecidableEq

/-- `UrsaService::handle_swarm_event` (service.rs lines 674–735). -/
def handle_swarm_event (st : ServiceState) (env : Env) (ev : SwarmEvent) :
    Except String (ServiceState × List Output) :=
  match ev with
  | SwarmEvent.identifyReceived _ _ _ =>
    -- gossip explicit peer / kad addresses live in the black-box behaviour
    Except.ok (st, [])
  | SwarmEvent.autonat aev => handle_autonat st env aev
  | SwarmEvent.ping => Except.ok (st, [])
  | SwarmEvent.bitswap bev => Except.ok (handle_bitswap st bev)
  | SwarmEvent.gossipsub => Except.ok (st, [Output.emit NetworkEvent.gossipEvent])
  | SwarmEvent.mdnsDiscovered pairs =>
    Except.ok ({ st with peers := mdnsStep st.peers pairs }, [])
  | SwarmEvent.mdnsExpired => Except.ok (st, [])
  | SwarmEvent.kad => Except.ok (st, [])
  | SwarmEvent.reqRes rev => Except.ok (handle_req_res st rev)
  | SwarmEvent.relayServer => Except.ok (st, [])
  | SwarmEvent.relayClient => Except.ok (st, [])
  | SwarmEvent.dcutr => Except.ok (st, [])
  | SwarmEvent.graphsync => Except.ok (st, [])
  | SwarmEvent.connectionEstablished peer =>
    if st.peers.contains peer then Except.ok (st, [])
    else Except.ok ({ st with peers := st.peers ++ [peer] },
      [Output.emit (NetworkEvent.peerConnected peer)])
  | SwarmEvent.connectionClosed peer numEstablished =>
    -- `num_established == 0 && self.peers.remove(&peer_id)` short-circuits
    if numEstablished = 0 then
      if st.peers.contains peer then
        Except.ok ({ st with
            peers := st.peers.filter (fun q => q != peer),
            peer_cached_content := eraseA st.peer_cached_content peer },
          [Output.emit (NetworkEvent.peerDisconnected peer)])
      else Except.ok (st, [])
    else Except.ok (st, [])
  | SwarmEvent.otherSwarm => Except.ok (st, [])

/-- One intake of the `select!` loop in `UrsaService::start`. -/
inductive LoopInput
  | swarm (ev : SwarmEvent)
  | command (c : NetworkCommand)
  | kadTimer
deriving Repr, DecidableEq

/-- One turn of the event loop (service.rs lines 938–953); the kad-walk
timer only issues a `get_closest_peers` query into the black-box DHT. -/
def step (st : ServiceState) (env : Env) (i : LoopInput) :
    Except String (ServiceState × List Output) :=
  match i with
  | LoopInput.swarm ev => handle_swarm_event st env ev
  | LoopInput.command c => Except.ok (handle_command st env c)
  | LoopInput.kadTimer => Except.ok (st, [])

/-- The state a step leads to, when the step does not panic. -/
def stepState (st : ServiceState) (env : Env) (i : LoopInput) :
    Option ServiceState :=
  match step st env i with
  | Except.ok (st', _) => some st'
  | Except.error _ => none

/-! ## Proxy cache path (`crates/ursa-proxy/src/core/handler.rs`) -/

/-- One result of `body.data().await` inside the spawned drain task. -/
inductive Chunk
  | data (bytes : List Nat)
  | errRead
deriving Repr, DecidableEq

/-- The spawned drain task of `proxy_pass` (handler.rs lines 66–88):
for each `Ok` chunk, write it to the duplex pipe (a failed write is only
logged) and append it to the in-memory buffer; an `Err` chunk returns
from the task; on end of stream the buffer is handed to the cache.
`writeResults` supplies the outcome of each `writer.write_all`;
`some buffer` means `UpstreamData{key, value = buffer}` was sent. -/
def drainTask : List Chunk → List Bool → List Nat → Option (List Nat)
  | [], _, acc => some acc
  | Chunk.data d :: rest, writeResults, acc =>
    -- the write result (`writeResults.head`) is inspected only to log
    drainTask rest writeResults.tail (acc ++ d)
  | Chunk.errRead :: _, _, _ => none

/-- Concatenation of the data chunks of an upstream body. -/
def chunksJoin : List Chunk → List Nat
  | [] => []
  | Chunk.data d :: rest => d ++ chunksJoin rest
  | Chunk.errRead :: rest => chunksJoin rest

/-- Result of `rx.await` on the cache `GetRequest` reply channel. -/
inductive CacheGetResult
  | hit
  | miss
  | recvErr
deriving Repr, DecidableEq

/-- Result of `Client::new().get(uri).await`. -/
inductive UpstreamResult
  | response (status : Nat) (body : List Chunk)
  | connErr
deriving Repr, DecidableEq

/-- The response `proxy_pass` returns to the client. -/
inductive ProxyResponse
  | cached
  | parseErrorText
  | internalError
  | verbatim (status : Nat) (body : List Chunk)
  | streamed
deriving Repr, DecidableEq

/-- `proxy_pass` (handler.rs lines 21–98). The second component is the
`UpstreamData` message sent to the cache by the drain task, if any. -/
def proxy_pass (noCache : Bool) (cacheResult : CacheGetResult) (parseOk : Bool)
    (upstream : UpstreamResult) (writeResults : List Bool) :
    ProxyResponse × Option (List Nat) :=
  match noCache, cacheResult with
  | false, CacheGetResult.hit => (ProxyResponse.cached, none)
  | _, _ =>
    if parseOk = false then (ProxyResponse.parseErrorText, none)
    else
      match upstream with
      | UpstreamResult.connErr => (ProxyResponse.internalError, none)
      | UpstreamResult.response status body =>
        if status = 200 then
          (ProxyResponse.streamed, drainTask body writeResults [])
        else
          (ProxyResponse.verbatim status body, none)

/-! ## Concrete states and environments used by witnesses and counterexamples -/

/-- The invariant of spec §8.2: every `PeerId` keyed in `PeerContentMap`
(`peer_cached_content`) is a member of `PeerTable` (`peers`). -/
def tableInv (st : ServiceState) : Prop :=
  ∀ p s, (p, s) ∈ st.peer_cached_content → p ∈ st.peers

/-- A freshly initialised service: all tables empty. -/
def emptyState : ServiceState :=
  { bitswap_queries := [], response_channels := [], pending_responses := [],
    peers := [], cached_content := CacheSummary.empty, peer_cached_content := [],
    bootstraps := [], relayClientEnabled := false }

/-- Environment with all-default black-box choices. -/
def env0 : Env :=
  { syncResult := none, requestId := 0, gossipOk := true,
    listen := ListenResult.ok, rand := 0, swarmListeners := [], publicAddr := none }

/-- Peer 7 connected and one waiter (channel 1) already registered for cid 5. -/
def c1State : ServiceState :=
  { emptyState with peers := [7], response_channels := [(5, [1])] }

/-- Query 4 in flight for cid 9, with waiters 1 and 2 registered. -/
def c2State : ServiceState :=
  { emptyState with
    peers := [3]
    bitswap_queries := [(4, 9)]
    response_channels := [(9, [1, 2])] }

/-- Peer 3 connected whose stored summary holds only cid 4. -/
def c3State : ServiceState :=
  { emptyState with peers := [3], peer_cached_content := [(3, ⟨[4]⟩)] }

/-- An outbound RPC with id 3 awaiting its reply on channel 8. -/
def c4State : ServiceState :=
  { emptyState with pending_responses := [(3, 8)] }

/-- The state reached from `emptyState` by a `StoreSummary` request from
peer 4: the summary is stored although peer 4 is not in `peers`. -/
def c8Bad : ServiceState :=
  { emptyState with peer_cached_content := [(4, CacheSummary.empty)] }

/-- Relay client enabled with one bootstrap address. -/
def c9State : ServiceState :=
  { emptyState with bootstraps := [6], relayClientEnabled := true }

/-- Environment in which `swarm.listen_on` fails. -/
def envErr : Env :=
  { env0 with listen := ListenResult.err }

/-! ## Helper lemmas about the table operations -/

theorem lookupA_none_eraseA {α : Type} (l : List (Nat × α)) (k : Nat)
    (h : lookupA l k = none) : eraseA l k = l := by
  induction l with
  | nil => rfl
  | cons hd tl ih =>
    cases hd with
    | mk k' v =>
      unfold lookupA at h
      by_cases hk : k' = k
      · simp [hk] at h
      · simp only [if_neg hk] at h
        have hb : (k' != k) = true := by simpa using hk
        unfold eraseA at ih ⊢
        simp [List.filter_cons, hb, ih h]

theorem mem_insertA {α : Type} (l : List (Nat × α)) (k : Nat) (v : α)
    (q : Nat) (t : α) (h : (q, t) ∈ insertA l k v) : (q, t) ∈ l ∨ q = k := by
  induction l with
  | nil =>
    unfold insertA at h
    simp at h
    exact Or.inr h.1
  | cons hd tl ih =>
    cases hd with
    | mk k' v' =>
      unfold insertA at h
      by_cases hk : k' = k
      · simp [hk] at h
        rcases h with h | h
        · exact Or.inr h.1
        · exact Or.inl (List.mem_cons_of_mem _ h)
      · simp [hk] at h
        rcases h with h | h
        · exact Or.inl (by simp [h])
        · rcases ih h with h' | h'
          · exact Or.inl (List.mem_cons_of_mem _ h')
          · exact Or.inr h'

theorem mem_eraseA {α : Type} (l : List (Nat × α)) (k : Nat) (q : Nat) (t : α)
    (h : (q, t) ∈ eraseA l k) : (q, t) ∈ l ∧ q ≠ k := by
  unfold eraseA at h
  have h' := List.mem_filter.mp h
  refine ⟨h'.1, ?_⟩
  simpa using h'.2

/-! ## C6 — GetBitswap with empty PeerTable -/

/-- C6: a `GetBitswap{cid}` command handled while `PeerTable` is empty
sends the structured no-peers failure on the reply channel and leaves
the whole service state unchanged: no table is mutated, no bitswap query
is started, and no event is emitted. -/
theorem getBitswap_no_peers_fails (st : ServiceState) (cid : Cid)
    (sender : ChanId) (syncResult : Option QueryId) (h : st.peers = []) :
    handleGetBitswap st cid sender syncResult =
      (st, [Output.reply sender Reply.errNoPeers]) := by
  unfold handleGetBitswap
  simp [h]

theorem getBitswap_no_peers_fails_witness :
    handleGetBitswap emptyState 7 1 (some 2) =
      (emptyState, [Output.reply 1 Reply.errNoPeers]) :=
  getBitswap_no_peers_fails emptyState 7 1 (some 2) rfl

/-! ## C5 — Put command ordering -/

/-- C5: handling `Put{cid}` first sends a `CacheRequest(cid)` RPC to
every peer in `PeerTable` at dequeue time, then inserts `cid` into the
local `CacheSummary`, then sends to every such peer a `StoreSummary` RPC
whose summary contains `cid`, and finally replies `Ok` on the command's
channel, in that order. -/
theorem put_replicates_then_summarizes (st : ServiceState) (env : Env)
    (cid : Cid) (sender : ChanId) :
    handle_command st env (NetworkCommand.put cid sender) =
      ({ st with cached_content := st.cached_content.insert cid },
        st.peers.map (fun p => Output.sendRequest p (RequestType.cacheRequest cid))
          ++ st.peers.map (fun p => Output.sendRequest p
               (RequestType.storeSummary (st.cached_content.insert cid)))
          ++ [Output.reply sender Reply.ok]) ∧
    (st.cached_content.insert cid).contains cid = true := by
  refine ⟨rfl, ?_⟩
  unfold CacheSummary.insert CacheSummary.contains
  cases h : st.cached_content.elems.contains cid with
  | true =>
    have h' : cid ∈ st.cached_content.elems := by simpa using h
    simp [h, h']
  | false => simp [h]

/-! ## C2 — BitswapEvent::Complete delivery -/

/-- C2: on `BitswapEvent::Complete` for a `query_id` recorded in
`BitswapQueries`, the handler removes the `query_id → cid` entry, sends
exactly one reply to every waiter stored in `BlockWaiters[cid]` at that
moment — `Ok` when the bitswap result is success and the
block-not-found failure when it is an error — and removes the
`BlockWaiters` entry for `cid`. -/
theorem bitswap_complete_delivers (st : ServiceState) (query_id : QueryId)
    (cid : Cid) (success : Bool)
    (hq : lookupA st.bitswap_queries query_id = some cid) :
    handle_bitswap st (BitswapEvent.complete query_id success) =
      ({ st with
          bitswap_queries := eraseA st.bitswap_queries query_id
          response_channels := eraseA st.response_channels cid },
        ((lookupA st.response_channels cid).getD []).map
          (fun chan =>
            Output.reply chan (if success then Reply.ok else Reply.errNotFound cid))) := by
  simp only [handle_bitswap, hq]
  cases hr : lookupA st.response_channels cid with
  | some chans => simp [hr]
  | none => simp [hr, lookupA_none_eraseA _ _ hr]

theorem bitswap_complete_delivers_witness :
    handle_bitswap c2State (BitswapEvent.complete 4 false) =
      ({ c2State with
          bitswap_queries := eraseA c2State.bitswap_queries 4
          response_channels := eraseA c2State.response_channels 9 },
        ((lookupA c2State.response_channels 9).getD []).map
          (fun chan =>
            Output.reply chan (if false then Reply.ok else Reply.errNotFound 9))) :=
  bitswap_complete_delivers c2State 4 9 false rfl

/-! ## C4 — PendingResponses cleanup -/

/-- C4 counterexample: on an `OutboundFailure` for the recorded
`RequestId` 3, the handler does nothing — the `PendingResponses` entry
`3 → 8` is still present afterwards, contradicting the claim that a
protocol-layer failure removes the entry. -/
theorem pending_response_failure_counterexample :
    handle_req_res c4State (ReqResEvent.outboundFailure 3) = (c4State, []) ∧
    lookupA c4State.pending_responses 3 = some 8 := by
  decide

/-- C4 amended: when a Response arrives for a recorded `RequestId`, the
stored reply channel receives the response and the entry is removed; but
on an outbound or inbound protocol-layer failure the handler does
nothing at all — the `PendingResponses` entry is not removed and the
reply channel is not dropped, so the caller keeps waiting. -/
theorem pending_responses_response_delivers_failure_ignored
    (st : ServiceState) (rid : RequestId) (chan : ChanId) (resp : ResponseType)
    (h : lookupA st.pending_responses rid = some chan) :
    handle_req_res st (ReqResEvent.responseMsg rid resp) =
      ({ st with pending_responses := eraseA st.pending_responses rid },
        [Output.reply chan (Reply.response resp)]) ∧
    (∀ rid2, handle_req_res st (ReqResEvent.outboundFailure rid2) = (st, []) ∧
             handle_req_res st (ReqResEvent.inboundFailure rid2) = (st, [])) := by
  refine ⟨?_, fun rid2 => ⟨rfl, rfl⟩⟩
  simp only [handle_req_res, h]

theorem pending_responses_cleanup_witness :
    handle_req_res c4State (ReqResEvent.responseMsg 3 ResponseType.cacheResponse) =
      ({ c4State with pending_responses := eraseA c4State.pending_responses 3 },
        [Output.reply 8 (Reply.response ResponseType.cacheResponse)]) :=
  (pending_responses_response_delivers_failure_ignored c4State 3 8
    ResponseType.cacheResponse rfl).1

/-! ## C1 — GetBitswap coalescing -/

/-- C1 counterexample: in `c1State` the cid 5 already has waiter 1
registered, yet handling a further `GetBitswap{5}` (with the bitswap
layer returning query id 9) creates a new `BitswapQueries` entry
`9 → 5`, starts a bitswap query (the `syncBlock` output), and emits
`BitswapWant{5, 9}` — contradicting the claim that with an existing
waiter the handler only appends the reply channel. -/
theorem getBitswap_coalesce_counterexample :
    lookupA c1State.response_channels 5 = some [1] ∧
    (handleGetBitswap c1State 5 2 (some 9)).1.bitswap_queries = [(9, 5)] ∧
    (handleGetBitswap c1State 5 2 (some 9)).2 =
      [Output.syncBlock 5 [7], Output.emit (NetworkEvent.bitswapWant 5 9)] := by
  decide

/-- C1 amended: every `GetBitswap{cid}` handled while `PeerTable` is
non-empty appends the reply channel to `BlockWaiters[cid]` (creating the
entry if absent) and then unconditionally starts a new bitswap query,
regardless of whether waiters already existed: when the query start
returns a `QueryId` a new `BitswapQueries` entry is recorded and
`BitswapWant{cid, query_id}` is emitted, so N back-to-back `GetBitswap`
commands for the same cid start N bitswap queries, not one. -/
theorem getBitswap_starts_query_every_time (st : ServiceState) (cid : Cid)
    (sender : ChanId) (query_id : QueryId) (h : st.peers ≠ []) :
    (handleGetBitswap st cid sender (some query_id)).1.bitswap_queries =
      insertA st.bitswap_queries query_id cid ∧
    (handleGetBitswap st cid sender (some query_id)).1.response_channels =
      (match lookupA st.response_channels cid with
       | some chans => insertA st.response_channels cid (chans ++ [sender])
       | none => insertA st.response_channels cid [sender]) ∧
    Output.emit (NetworkEvent.bitswapWant cid query_id) ∈
      (handleGetBitswap st cid sender (some query_id)).2 := by
  have hp : st.peers.isEmpty = false := by
    cases hl : st.peers with
    | nil => exact absurd hl h
    | cons a t => rfl
  unfold handleGetBitswap
  cases hc : lookupA st.response_channels cid with
  | some chans => simp [hp, hc]
  | none => simp [hp, hc]

theorem getBitswap_starts_query_every_time_witness :
    (handleGetBitswap c1State 5 2 (some 9)).1.bitswap_queries =
      insertA c1State.bitswap_queries 9 5 ∧
    (handleGetBitswap c1State 5 2 (some 9)).1.response_channels =
      (match lookupA c1State.response_channels 5 with
       | some chans => insertA c1State.response_channels 5 (chans ++ [2])
       | none => insertA c1State.response_channels 5 [2]) ∧
    Output.emit (NetworkEvent.bitswapWant 5 9) ∈
      (handleGetBitswap c1State 5 2 (some 9)).2 :=
  getBitswap_starts_query_every_time c1State 5 2 9 (by decide)

/-! ## C3 — peer filtering for bitswap -/

/-- C3 counterexample: in `c3State` the only connected peer (3) has a
stored summary that does not contain cid 5, and the bitswap query is
started with the empty peer set — there is no fallback to all connected
peers, contradicting the claim that the summary never gates the fetch
down to an empty peer set. -/
theorem getBitswap_fallback_counterexample :
    c3State.peers = [3] ∧
    (handleGetBitswap c3State 5 1 (some 2)).2 =
      [Output.syncBlock 5 [], Output.emit (NetworkEvent.bitswapWant 5 2)] := by
  decide

/-- C3 amended: the peer set passed to the bitswap query keeps exactly
those connected peers that either have no stored `PeerContentMap`
summary or whose stored summary `contains(cid)`; a peer whose stored
summary does not contain the cid is excluded, and there is no fallback —
if every connected peer has a summary not containing the cid, the query
is started with an empty peer set. -/
theorem getBitswap_filter_semantics (st : ServiceState) (cid : Cid)
    (sender : ChanId) (syncResult : Option QueryId) (passed : List PeerId)
    (h : st.peers ≠ [])
    (hout : Output.syncBlock cid passed ∈
      (handleGetBitswap st cid sender syncResult).2) :
    ∀ p, p ∈ passed ↔ p ∈ st.peers ∧
      (∀ cache_summary, lookupA st.peer_cached_content p = some cache_summary →
        cache_summary.contains cid = true) := by
  have hp : st.peers.isEmpty = false := by
    cases hl : st.peers with
    | nil => exact absurd hl h
    | cons a t => rfl
  have hpassed : passed = st.peers.filter (fun p =>
      match lookupA st.peer_cached_content p with
      | some cache_summary => cache_summary.contains cid
      | none => true) := by
    unfold handleGetBitswap at hout
    cases syncResult with
    | some qid => simp [hp] at hout; exact hout
    | none => simp [hp] at hout; exact hout
  subst hpassed
  intro p
  rw [List.mem_filter]
  constructor
  · rintro ⟨hmem, hf⟩
    refine ⟨hmem, ?_⟩
    intro cache_summary hcs
    rw [hcs] at hf
    exact hf
  · rintro ⟨hmem, hall⟩
    refine ⟨hmem, ?_⟩
    cases hcs : lookupA st.peer_cached_content p with
    | some cache_summary => exact hall cache_summary hcs
    | none => rfl

theorem getBitswap_filter_semantics_witness :
    (3 ∈ ([] : List PeerId)) ↔ 3 ∈ c3State.peers ∧
      (∀ cache_summary, lookupA c3State.peer_cached_content 3 = some cache_summary →
        cache_summary.contains 5 = true) :=
  getBitswap_filter_semantics c3State 5 1 (some 2) [] (by decide) (by decide) 3

/-! ## Proxy drain-task lemmas -/

theorem drainTask_ignores_writes (body : List Chunk) (ws ws' : List Bool)
    (acc : List Nat) : drainTask body ws acc = drainTask body ws' acc := by
  induction body generalizing ws ws' acc with
  | nil => rfl
  | cons c rest ih =>
    cases c with
    | data d => exact ih ws.tail ws'.tail (acc ++ d)
    | errRead => rfl

theorem drainTask_complete_of_no_err (body : List Chunk) (ws : List Bool)
    (acc : List Nat) (h : Chunk.errRead ∉ body) :
    drainTask body ws acc = some (acc ++ chunksJoin body) := by
  induction body generalizing ws acc with
  | nil => simp [drainTask, chunksJoin]
  | cons c rest ih =>
    cases c with
    | data d =>
      have hr : Chunk.errRead ∉ rest := fun hm => h (List.mem_cons_of_mem _ hm)
      simp [drainTask, chunksJoin, ih ws.tail (acc ++ d) hr]
    | errRead => exact absurd (List.mem_cons_self _ _) h

theorem drainTask_none_of_err (body : List Chunk) (ws : List Bool)
    (acc : List Nat) (h : Chunk.errRead ∈ body) :
    drainTask body ws acc = none := by
  induction body generalizing ws acc with
  | nil => exact absurd h (List.not_mem_nil _)
  | cons c rest ih =>
    cases c with
    | data d =>
      have hr : Chunk.errRead ∈ rest := by
        rcases List.mem_cons.mp h with h' | h'
        · exact absurd h'.symm (by simp)
        · exact h'
      simp [drainTask, ih ws.tail (acc ++ d) hr]
    | errRead => rfl

/-! ## C7 — cache insertion only after a clean 200 -/

/-- C7: the proxy sends an `UpstreamData` message to the cache only when
the upstream returned status 200 and its whole body drained with no
mid-stream chunk error (and the cached value is exactly the drained
body); a non-200 upstream response is forwarded verbatim and never
cached; a mid-stream read error on a 200 response aborts the drain task
with no cache write. -/
theorem proxy_caches_only_complete_200 (noCache : Bool) (cr : CacheGetResult)
    (parseOk : Bool) (up : UpstreamResult) (ws : List Bool) :
    (∀ bytes, (proxy_pass noCache cr parseOk up ws).2 = some bytes →
      ∃ body, up = UpstreamResult.response 200 body ∧ Chunk.errRead ∉ body ∧
        bytes = chunksJoin body) ∧
    (∀ status body, up = UpstreamResult.response status body → status ≠ 200 →
      (proxy_pass noCache cr parseOk up ws).2 = none ∧
      ((noCache = true ∨ cr ≠ CacheGetResult.hit) → parseOk = true →
        (proxy_pass noCache cr parseOk up ws).1 =
          ProxyResponse.verbatim status body)) ∧
    (∀ body, up = UpstreamResult.response 200 body → Chunk.errRead ∈ body →
      (proxy_pass noCache cr parseOk up ws).2 = none) := by
  refine ⟨?_, ?_, ?_⟩
  · intro bytes hsome
    unfold proxy_pass at hsome
    split at hsome
    · exact absurd hsome (by simp)
    · split at hsome
      · exact absurd hsome (by simp)
      · cases up with
        | connErr => exact absurd hsome (by simp)
        | response status body =>
          dsimp only at hsome
          by_cases hs : status = 200
          · subst hs
            simp only [if_pos rfl] at hsome
            have hne : Chunk.errRead ∉ body := by
              intro hmem
              rw [drainTask_none_of_err body ws [] hmem] at hsome
              exact Option.noConfusion hsome
            refine ⟨body, rfl, hne, ?_⟩
            rw [drainTask_complete_of_no_err body ws [] hne] at hsome
            simpa using hsome.symm
          · rw [if_neg hs] at hsome
            exact absurd hsome (by simp)
  · intro status body hup hstat
    subst hup
    unfold proxy_pass
    split
    · rename_i hnc hcr
      refine ⟨rfl, ?_⟩
      intro hpre _
      rcases hpre with hpre | hpre
      · exact absurd hpre (by simp)
      · exact absurd rfl hpre
    · split
      · rename_i hparse
        refine ⟨rfl, ?_⟩
        intro _ hptrue
        rw [hptrue] at hparse
        exact absurd hparse (by simp)
      · dsimp only
        rw [if_neg hstat]
        exact ⟨rfl, fun _ _ => rfl⟩
  · intro body hup herr
    subst hup
    unfold proxy_pass
    split
    · rfl
    · split
      · rfl
      · simp only [if_pos rfl]
        exact drainTask_none_of_err body ws [] herr

theorem proxy_caches_only_complete_200_witness :
    (proxy_pass false CacheGetResult.miss true
        (UpstreamResult.response 404 [Chunk.data [1]]) []).2 = none ∧
    (proxy_pass false CacheGetResult.miss true
        (UpstreamResult.response 404 [Chunk.data [1]]) []).1 =
      ProxyResponse.verbatim 404 [Chunk.data [1]] := by
  have h := (proxy_caches_only_complete_200 false CacheGetResult.miss true
      (UpstreamResult.response 404 [Chunk.data [1]]) []).2.1 404 [Chunk.data [1]]
      rfl (by decide)
  exact ⟨h.1, h.2 (Or.inr (by decide)) rfl⟩

/-! ## C10 — write failures to the client do not abort the drain -/

/-- C10: the drain task's behaviour is independent of the outcomes of
the writes to the client's duplex pipe — a failed write does not abort
the task and the chunk is still appended to the buffer; on a clean
upstream end-of-stream the full concatenated body is sent to the cache
regardless of write failures, and the task aborts with no cache write
exactly when the upstream yields a chunk read error. -/
theorem drain_write_failure_does_not_abort (body : List Chunk)
    (ws ws' : List Bool) (acc : List Nat) :
    drainTask body ws acc = drainTask body ws' acc ∧
    (Chunk.errRead ∉ body → drainTask body ws acc = some (acc ++ chunksJoin body)) ∧
    (Chunk.errRead ∈ body → drainTask body ws acc = none) :=
  ⟨drainTask_ignores_writes body ws ws' acc,
   fun h => drainTask_complete_of_no_err body ws acc h,
   fun h => drainTask_none_of_err body ws acc h⟩

theorem drain_write_failure_does_not_abort_witness :
    drainTask [Chunk.data [1], Chunk.data [2]] [false, false] [] =
      drainTask [Chunk.data [1], Chunk.data [2]] [true, true] [] ∧
    drainTask [Chunk.data [1], Chunk.data [2]] [false, false] [] =
      some ([] ++ chunksJoin [Chunk.data [1], Chunk.data [2]]) :=
  ⟨(drain_write_failure_does_not_abort [Chunk.data [1], Chunk.data [2]]
      [false, false] [true, true] []).1,
   (drain_write_failure_does_not_abort [Chunk.data [1], Chunk.data [2]]
      [false, false] [true, true] []).2.1 (by decide)⟩

/-! ## Helper lemmas for the event-loop invariant -/

theorem ok_pair_state {st0 st' : ServiceState} {outs0 outs' : List Output}
    (h : (Except.ok (st0, outs0) : Except String (ServiceState × List Output)) =
      Except.ok (st', outs')) : st' = st0 := by
  injection h with h1
  injection h1 with h2 h3
  exact h2.symm

theorem pair_state {st0 st' : ServiceState} {outs0 outs' : List Output}
    (h : (st0, outs0) = (st', outs')) : st' = st0 := by
  injection h with h1 h2
  exact h1.symm

theorem tableInv_of_tables {st st' : ServiceState}
    (hpc : st'.peer_cached_content = st.peer_cached_content)
    (hp : st'.peers = st.peers) (hinv : tableInv st) : tableInv st' := by
  intro p s hm
  rw [hp]
  exact hinv p s (hpc ▸ hm)

theorem mem_filter_ne (l : List PeerId) (p q : PeerId)
    (h : q ∈ l) (hne : q ≠ p) : q ∈ l.filter (fun x => x != p) := by
  rw [List.mem_filter]
  exact ⟨h, by simpa using hne⟩

theorem mem_mdnsStep (pairs : List (PeerId × Multiaddr)) (peers : List PeerId)
    (p : PeerId) (h : p ∈ peers) : p ∈ mdnsStep peers pairs := by
  induction pairs generalizing peers with
  | nil => exact h
  | cons pr rest ih =>
    cases pr with
    | mk q a =>
      unfold mdnsStep
      by_cases hq : peers.contains q = true
      · rw [if_pos hq]
        exact ih peers h
      · rw [if_neg hq]
        exact ih _ (List.mem_append_left _ h)

theorem handleGetBitswap_tables (st : ServiceState) (cid : Cid) (sender : ChanId)
    (sr : Option QueryId) :
    (handleGetBitswap st cid sender sr).1.peer_cached_content = st.peer_cached_content ∧
    (handleGetBitswap st cid sender sr).1.peers = st.peers := by
  unfold handleGetBitswap
  by_cases hp : st.peers.isEmpty = true
  · simp [hp]
  · cases sr <;> cases hc : lookupA st.response_channels cid <;> simp [hp, hc]

theorem handle_command_tables (st : ServiceState) (env : Env) (c : NetworkCommand) :
    (handle_command st env c).1.peer_cached_content = st.peer_cached_content ∧
    (handle_command st env c).1.peers = st.peers := by
  cases c with
  | getBitswap cid sender => exact handleGetBitswap_tables st cid sender env.syncResult
  | put cid sender => exact ⟨rfl, rfl⟩
  | getPeers sender => exact ⟨rfl, rfl⟩
  | getListenerAddresses sender =>
    cases env.publicAddr <;> exact ⟨rfl, rfl⟩
  | sendRequest peer request channel => exact ⟨rfl, rfl⟩
  | gossipsubMessage m => cases m <;> exact ⟨rfl, rfl⟩

theorem handle_bitswap_tables (st : ServiceState) (ev : BitswapEvent) :
    (handle_bitswap st ev).1.peer_cached_content = st.peer_cached_content ∧
    (handle_bitswap st ev).1.peers = st.peers := by
  cases ev with
  | progress q => exact ⟨rfl, rfl⟩
  | complete q success =>
    simp only [handle_bitswap]
    cases hq : lookupA st.bitswap_queries q with
    | none => simp
    | some cid =>
      cases hr : lookupA st.response_channels cid with
      | none => simp [hr]
      | some chans => simp [hr]

theorem handle_autonat_ok_state (st : ServiceState) (env : Env) (ev : AutonatEvent)
    (st' : ServiceState) (outs : List Output)
    (h : handle_autonat st env ev = Except.ok (st', outs)) : st' = st := by
  cases ev with
  | inboundProbe =>
    unfold handle_autonat at h
    exact ok_pair_state h
  | outboundProbe =>
    unfold handle_autonat at h
    exact ok_pair_state h
  | statusChanged old new =>
    simp only [handle_autonat] at h
    repeat' split at h
    all_goals first
      | exact ok_pair_state h
      | exact Except.noConfusion h

/-! ## C8 — PeerContentMap ⊆ PeerTable invariant -/

/-- C8 counterexample: from the freshly initialised state (which
satisfies the invariant), one step handling a `StoreSummary` request
from peer 4 — which the handler stores without any membership check —
yields a state whose `PeerContentMap` has key 4 while `PeerTable` does
not contain 4, so this step does not preserve the invariant. -/
theorem peer_content_invariant_counterexample :
    tableInv emptyState ∧
    stepState emptyState env0 (LoopInput.swarm (SwarmEvent.reqRes
      (ReqResEvent.requestMsg 4 0 (RequestType.storeSummary CacheSummary.empty)))) =
      some c8Bad ∧
    (4, CacheSummary.empty) ∈ c8Bad.peer_cached_content ∧ 4 ∉ c8Bad.peers := by
  refine ⟨?_, by decide, by decide, by decide⟩
  intro p s hm
  cases hm

/-- C8 amended: every step of the event loop preserves the invariant
that each key of `PeerContentMap` is in `PeerTable`, provided every
`StoreSummary` request handled in that step comes from a peer currently
in `PeerTable` (the handler itself performs no such check, so the
invariant relies on the swarm only delivering requests from connected
peers); in particular `ConnectionClosed` with `num_established == 0`
removes the peer from both tables and preserves it unconditionally. -/
theorem step_preserves_peer_content_invariant (st : ServiceState) (env : Env)
    (i : LoopInput) (st' : ServiceState) (outs : List Output)
    (hinv : tableInv st)
    (hgood : ∀ peer rid s,
      i = LoopInput.swarm (SwarmEvent.reqRes (ReqResEvent.requestMsg peer rid
        (RequestType.storeSummary s))) → peer ∈ st.peers)
    (hstep : step st env i = Except.ok (st', outs)) :
    tableInv st' := by
  cases i with
  | kadTimer =>
    have hs := ok_pair_state hstep
    subst hs
    exact hinv
  | command c =>
    have hs : handle_command st env c = (st', outs) := by
      injection hstep
    have ht := handle_command_tables st env c
    rw [hs] at ht
    exact tableInv_of_tables ht.1 ht.2 hinv
  | swarm ev =>
    cases ev with
    | identifyReceived peer sameNetwork addrs =>
      have hs := ok_pair_state hstep
      subst hs
      exact hinv
    | ping =>
      have hs := ok_pair_state hstep
      subst hs
      exact hinv
    | gossipsub =>
      have hs := ok_pair_state hstep
      subst hs
      exact hinv
    | mdnsExpired =>
      have hs := ok_pair_state hstep
      subst hs
      exact hinv
    | kad =>
      have hs := ok_pair_state hstep
      subst hs
      exact hinv
    | relayServer =>
      have hs := ok_pair_state hstep
      subst hs
      exact hinv
    | relayClient =>
      have hs := ok_pair_state hstep
      subst hs
      exact hinv
    | dcutr =>
      have hs := ok_pair_state hstep
      subst hs
      exact hinv
    | graphsync =>
      have hs := ok_pair_state hstep
      subst hs
      exact hinv
    | otherSwarm =>
      have hs := ok_pair_state hstep
      subst hs
      exact hinv
    | autonat aev =>
      have hs := handle_autonat_ok_state st env aev st' outs hstep
      subst hs
      exact hinv
    | bitswap bev =>
      have hs : handle_bitswap st bev = (st', outs) := by
        injection hstep
      have ht := handle_bitswap_tables st bev
      rw [hs] at ht
      exact tableInv_of_tables ht.1 ht.2 hinv
    | mdnsDiscovered pairs =>
      have hs : st' = { st with peers := mdnsStep st.peers pairs } :=
        ok_pair_state hstep
      subst hs
      intro p s hm
      exact mem_mdnsStep pairs st.peers p (hinv p s hm)
    | connectionEstablished peer =>
      by_cases hc : st.peers.contains peer = true
      · simp only [step, handle_swarm_event, hc, if_true] at hstep
        have hs := ok_pair_state hstep
        subst hs
        exact hinv
      · simp only [step, handle_swarm_event, hc, if_false, Bool.false_eq_true] at hstep
        have hs : st' = { st with peers := st.peers ++ [peer] } :=
          ok_pair_state hstep
        subst hs
        intro p s hm
        exact List.mem_append_left _ (hinv p s hm)
    | connectionClosed peer n =>
      by_cases hn : n = 0
      · subst hn
        by_cases hc : st.peers.contains peer = true
        · simp only [step, handle_swarm_event, hc, if_true, if_pos rfl] at hstep
          have hs : st' = { st with
              peers := st.peers.filter (fun q => q != peer),
              peer_cached_content := eraseA st.peer_cached_content peer } :=
            ok_pair_state hstep
          subst hs
          intro p s hm
          have hm' := mem_eraseA st.peer_cached_content peer p s hm
          exact mem_filter_ne st.peers peer p (hinv p s hm'.1) hm'.2
        · simp only [step, handle_swarm_event, hc, if_false, if_pos rfl,
            Bool.false_eq_true] at hstep
          have hs := ok_pair_state hstep
          subst hs
          exact hinv
      · simp only [step, handle_swarm_event, if_neg hn] at hstep
        have hs := ok_pair_state hstep
        subst hs
        exact hinv
    | reqRes rev =>
      have hs : handle_req_res st rev = (st', outs) := by
        injection hstep
      cases rev with
      | requestMsg peer rid req =>
        cases req with
        | carRequest =>
          have h' := pair_state hs
          subst h'
          exact hinv
        | cacheRequest cid =>
          have h' := pair_state hs
          subst h'
          exact hinv
        | storeSummary s =>
          have hpeer : peer ∈ st.peers := hgood peer rid s rfl
          have h' : st' = { st with
              peer_cached_content := insertA st.peer_cached_content peer s } :=
            pair_state hs
          subst h'
          intro p s' hm
          rcases mem_insertA st.peer_cached_content peer s p s' hm with hm' | hm'
          · exact hinv p s' hm'
          · subst hm'
            exact hpeer
      | responseMsg rid resp =>
        cases hl : lookupA st.pending_responses rid with
        | some chan =>
          simp only [handle_req_res, hl] at hs
          have h' : st' = { st with
              pending_responses := eraseA st.pending_responses rid } :=
            pair_state hs
          subst h'
          exact hinv
        | none =>
          simp only [handle_req_res, hl] at hs
          have h' := pair_state hs
          subst h'
          exact hinv
      | outboundFailure rid =>
        have h' := pair_state hs
        subst h'
        exact hinv
      | inboundFailure rid =>
        have h' := pair_state hs
        subst h'
        exact hinv
      | responseSent =>
        have h' := pair_state hs
        subst h'
        exact hinv

theorem step_preserves_peer_content_invariant_witness : tableInv emptyState :=
  step_preserves_peer_content_invariant emptyState env0
    (LoopInput.command (NetworkCommand.getPeers 0)) emptyState
    [Output.reply 0 (Reply.peersSnapshot [])]
    (fun p s hm => absurd hm (List.not_mem_nil _))
    (fun peer rid s h => LoopInput.noConfusion h)
    rfl

/-! ## C9 — handler panics -/

theorem chooseRand_some_nonempty (l : List Multiaddr) (r : Nat) (a : Multiaddr)
    (h : chooseRand l r = some a) : l ≠ [] := by
  intro hl
  subst hl
  simp [chooseRand] at h

/-- C9 counterexample: with the relay client enabled and one bootstrap
address, an Autonat `StatusChanged` transition `Unknown → Private` —
remote-probe-driven behaviour — makes the handler call
`swarm.listen_on(circuit_addr).expect("failed to listen on relay")`;
when `listen_on` fails the handler panics instead of returning,
contradicting the claim that handlers never abort on remote behaviour. -/
theorem autonat_relay_listen_panics_counterexample :
    handle_swarm_event c9State envErr (SwarmEvent.autonat
      (AutonatEvent.statusChanged NatStatus.unknown NatStatus.privateStatus)) =
      Except.error "failed to listen on relay" := by
  rfl

/-- C9 amended: every swarm-event handler returns rather than panicking
— including the `CacheRequest` graphsync path — except for exactly one
case: an Autonat `StatusChanged Unknown → Private` with the relay client
enabled and a non-empty bootstrap list panics (via `expect`) when
`listen_on` of the chosen relay circuit address fails; any panic of
`handle_swarm_event` arises from that path alone. -/
theorem swarm_panic_only_on_relay_listen (st : ServiceState) (env : Env)
    (ev : SwarmEvent) (msg : String)
    (h : handle_swarm_event st env ev = Except.error msg) :
    ev = SwarmEvent.autonat (AutonatEvent.statusChanged NatStatus.unknown
      NatStatus.privateStatus) ∧
    st.relayClientEnabled = true ∧ st.bootstraps ≠ [] ∧
    env.listen = ListenResult.err ∧ msg = "failed to listen on relay" := by
  cases ev with
  | identifyReceived peer sameNetwork addrs => exact Except.noConfusion h
  | ping => exact Except.noConfusion h
  | gossipsub => exact Except.noConfusion h
  | mdnsDiscovered pairs => exact Except.noConfusion h
  | mdnsExpired => exact Except.noConfusion h
  | kad => exact Except.noConfusion h
  | relayServer => exact Except.noConfusion h
  | relayClient => exact Except.noConfusion h
  | dcutr => exact Except.noConfusion h
  | graphsync => exact Except.noConfusion h
  | otherSwarm => exact Except.noConfusion h
  | bitswap bev => exact Except.noConfusion h
  | reqRes rev => exact Except.noConfusion h
  | connectionEstablished peer =>
    simp only [handle_swarm_event] at h
    split at h
    · exact Except.noConfusion h
    · exact Except.noConfusion h
  | connectionClosed peer n =>
    simp only [handle_swarm_event] at h
    split at h
    · split at h
      · exact Except.noConfusion h
      · exact Except.noConfusion h
    · exact Except.noConfusion h
  | autonat aev =>
    cases aev with
    | inboundProbe => exact Except.noConfusion h
    | outboundProbe => exact Except.noConfusion h
    | statusChanged old new =>
      simp only [handle_swarm_event, handle_autonat] at h
      repeat' split at h
      any_goals exact Except.noConfusion h
      rename_i hrelay x1 a hsome x2 hlisten
      injection h with hmsg
      exact ⟨rfl, hrelay, chooseRand_some_nonempty st.bootstraps env.rand a hsome,
        hlisten, hmsg.symm⟩

theorem swarm_panic_only_on_relay_listen_witness :
    SwarmEvent.autonat (AutonatEvent.statusChanged NatStatus.unknown
        NatStatus.privateStatus) =
      SwarmEvent.autonat (AutonatEvent.statusChanged NatStatus.unknown
        NatStatus.privateStatus) ∧
    c9State.relayClientEnabled = true ∧ c9State.bootstraps ≠ [] ∧
    envErr.listen = ListenResult.err ∧
    "failed to listen on relay" = "failed to listen on relay" :=
  swarm_panic_only_on_relay_listen c9State envErr
    (SwarmEvent.autonat (AutonatEvent.statusChanged NatStatus.unknown
      NatStatus.privateStatus))
    "failed to listen on relay" rfl

end Ursa
